import Mathlib

/-!
Verification of the tiered-cache and usage-accounting subsystem of the
promptly-api worker.

The definitions below are a shallow embedding of the TypeScript sources:

* `src/cache.ts` (the tiered revision exporting `L2_TTL`, the one imported by
  `fetch-prompt.ts` and `verify-api-key.ts`): the facade `getFromCache` /
  `setInCache` over an in-process L1 memory cache and the KV L2 store.
* `src/memory-cache.ts` is imported by the sources but absent from the tree;
  its `MemoryCache` model below is marked as modelled from the spec.
* `src/usage.ts`: `getPlanInfo`, `buildUsageStatus`, `checkUsageLimit`,
  `incrementUsage`.
* `src/fetch-prompt.ts`: `parseVersion`, `formatVersion`, version/prompt
  queries and `fetchPrompt`.
* `src/verify-api-key.ts`: `hasPermission` and `verifyApiKey` (the SHA-256
  hash is an external capability and is passed in as a function argument).

Asynchronous I/O is embedded as explicit state passing; a JavaScript
exception crossing a function boundary is embedded as `Except.error`;
wall-clock instants are `Nat` seconds threaded explicitly; JavaScript
`undefined` optional arguments are `Option` arguments.  Key/value stores
are association lists in which the most recent binding for a key shadows
older ones (newest first), an extensionally faithful model of a JS `Map`,
of a KV namespace and of a keyed SQL table.
-/

set_option autoImplicit false

namespace Promptly

instance {ε α : Type} [DecidableEq ε] [DecidableEq α] :
    DecidableEq (Except ε α) := fun a b =>
  match a, b with
  | Except.error e1, Except.error e2 =>
    if h : e1 = e2 then Decidable.isTrue (by rw [h])
    else Decidable.isFalse (fun hc => h (Except.error.inj hc))
  | Except.error _, Except.ok _ =>
    Decidable.isFalse (fun hc => Except.noConfusion hc)
  | Except.ok _, Except.error _ =>
    Decidable.isFalse (fun hc => Except.noConfusion hc)
  | Except.ok v1, Except.ok v2 =>
    if h : v1 = v2 then Decidable.isTrue (by rw [h])
    else Decidable.isFalse (fun hc => h (Except.ok.inj hc))

/-- Association-list lookup; the most recent (first) binding for a key wins.
This models JS `Map` lookups, KV reads and `LIMIT 1` keyed point queries. -/
def alookup {κ β : Type} [DecidableEq κ] : List (κ × β) → κ → Option β
  | [], _ => none
  | (k2, v) :: rest, k => if k2 = k then some v else alookup rest k

/-- Association-list update: the new binding shadows any older one. -/
def aset {κ β : Type} (rows : List (κ × β)) (k : κ) (v : β) :
    List (κ × β) :=
  (k, v) :: rows

/-- A memory-cache entry: a value together with its absolute expiry instant
(seconds).  Mirrors the `CacheEntry` of the spec data model. -/
structure CacheEntry (α : Type) where
  value : α
  expiresAt : Nat
  deriving DecidableEq, Repr

/-- Modelled from the spec: `src/memory-cache.ts` (the Local Tier / L1
memory cache, `memoryCache` in the sources) is not among the source files,
only its callers are.  Spec §4.1: process-lifetime key/value store,
`get(key)` treats an entry whose `expiresAt` has passed as absent,
`set(key, value, ttlSeconds)` stores the value with per-entry expiry;
operations cannot fail.  Lazy eviction of an expired entry is observationally
the same as leaving it in place, so `get` is modelled as a pure query. -/
structure MemoryCache (α : Type) where
  entries : List (String × CacheEntry α)
  deriving DecidableEq, Repr

/-- Local-Tier read: absent unless a binding exists whose expiry is strictly
in the future (spec §8: present strictly before the TTL has elapsed). -/
def MemoryCache.get {α : Type} (c : MemoryCache α) (now : Nat) (key : String) :
    Option α :=
  match alookup c.entries key with
  | some e => if now < e.expiresAt then some e.value else none
  | none => none

/-- Local-Tier write: stores the value with expiry `now + ttl`, replacing any
previous binding wholesale. -/
def MemoryCache.set {α : Type} (c : MemoryCache α) (key : String) (value : α)
    (ttl now : Nat) : MemoryCache α :=
  ⟨aset c.entries key ⟨value, now + ttl⟩⟩

/-- A Shared-Tier (Cloudflare KV) entry: `expiresAt = none` means the entry
never expires (the put was issued without `expirationTtl`). -/
structure SharedEntry (α : Type) where
  value : α
  expiresAt : Option Nat
  deriving DecidableEq, Repr

/-- The Shared Tier (the `kv : Env[PROMPTS_CACHE]` binding).  `failGet` and
`failPut` list the keys on which `get` / `put` raises a transient I/O
error, embedding the fallibility of the external KV capability. -/
structure SharedTier (α : Type) where
  entries : List (String × SharedEntry α)
  failGet : List String
  failPut : List String
  deriving DecidableEq, Repr

/-- Shared-Tier lookup ignoring faults: a value is returned while its expiry
has not passed; an entry with no expiry is returned at every instant. -/
def SharedTier.getRaw {α : Type} (s : SharedTier α) (now : Nat) (key : String) :
    Option α :=
  match alookup s.entries key with
  | some e =>
    match e.expiresAt with
    | some t => if now < t then some e.value else none
    | none => some e.value
  | none => none

/-- Shared-Tier `get`: raises (returns `Except.error`) on the keys listed in
`failGet`, otherwise answers from the entries. -/
def SharedTier.get {α : Type} (s : SharedTier α) (now : Nat) (key : String) :
    Except Unit (Option α) :=
  if key ∈ s.failGet then Except.error ()
  else Except.ok (s.getRaw now key)

/-- Shared-Tier `put`: `expirationTtl = none` stores the value indefinitely,
`expirationTtl = some t` stores it until `now + t`; raises on `failPut`. -/
def SharedTier.put {α : Type} (s : SharedTier α) (now : Nat) (key : String)
    (value : α) (expirationTtl : Option Nat) : Except Unit (SharedTier α) :=
  if key ∈ s.failPut then Except.error ()
  else
    Except.ok
      { s with
        entries := aset s.entries key ⟨value, expirationTtl.map (now + ·)⟩ }

/-- The state the tiered facade of `src/cache.ts` operates on: the
module-level `memoryCache` (L1) and the `kv` namespace (L2). -/
structure TieredCache (α : Type) where
  memoryCache : MemoryCache α
  kv : SharedTier α
  deriving DecidableEq, Repr

/-- L1 TTL of `src/cache.ts`: 5 minutes. -/
def L1_TTL : Nat := 300

/-- Default L2 TTL of `src/cache.ts`: 5 minutes. -/
def L2_TTL : Nat := 300

/-- Outcome of the facade read: the returned value (or a propagated
exception), the state after the call, and whether the Shared Tier was
accessed at all. -/
structure ReadOutcome (α : Type) where
  result : Except Unit (Option α)
  state : TieredCache α
  sharedAccessed : Bool
  deriving DecidableEq, Repr

/-- Facade read `getFromCache` of `src/cache.ts`: check L1 first and return immediately
on a hit; on an L1 miss read L2 (`kv.get`, which may raise — there is no
try/catch in the source, so the error propagates); on an L2 hit promote the
value into L1 with `L1_TTL` and return it; otherwise report a miss. -/
def getFromCache {α : Type} (tc : TieredCache α) (now : Nat) (key : String) :
    ReadOutcome α :=
  match tc.memoryCache.get now key with
  | some l1 => ⟨Except.ok (some l1), tc, false⟩
  | none =>
    match tc.kv.get now key with
    | Except.error e => ⟨Except.error e, tc, true⟩
    | Except.ok (some l2) =>
      ⟨Except.ok (some l2),
        { tc with memoryCache := tc.memoryCache.set key l2 L1_TTL now }, true⟩
    | Except.ok none => ⟨Except.ok none, tc, true⟩

/-- Outcome of the facade write: `result` is the propagated exception if the
KV put raised; `state` reflects all writes performed before the raise. -/
structure WriteOutcome (α : Type) where
  result : Except Unit Unit
  state : TieredCache α
  sharedWritten : Bool
  deriving DecidableEq, Repr

/-- Facade write `setInCache` of `src/cache.ts`: always write L1 with `L1_TTL`; write L2
only when `kvTtl` is provided (`some`), with no expiry when `kvTtl = 0` and
with `expirationTtl = kvTtl` when it is positive.  A raising put propagates
(no try/catch in the source), after the L1 write has already happened. -/
def setInCache {α : Type} (tc : TieredCache α) (now : Nat) (key : String)
    (value : α) (kvTtl : Option Nat) : WriteOutcome α :=
  let mem := tc.memoryCache.set key value L1_TTL now
  match kvTtl with
  | none => ⟨Except.ok (), ⟨mem, tc.kv⟩, false⟩
  | some t =>
    match tc.kv.put now key value (if 0 < t then some t else none) with
    | Except.ok kv2 => ⟨Except.ok (), ⟨mem, kv2⟩, true⟩
    | Except.error e => ⟨Except.error e, ⟨mem, tc.kv⟩, true⟩

/-- A concrete Shared-Tier-fault state used to exhibit the behaviour of the
facade under an L2 read fault: L1 empty, L2 `get` on key `k` raising. -/
def faultyTC : TieredCache Nat :=
  ⟨⟨[]⟩, ⟨[], ["k"], []⟩⟩

/-- Subscription plan tier (`Plan` in `types.ts`). -/
inductive Plan where
  | free
  | pro
  | enterprise
  deriving DecidableEq, Repr

/-- Plan info (`PlanInfo` in `types.ts`); `limit = none` means unlimited. -/
structure PlanInfo where
  plan : Plan
  limit : Option Int
  deriving DecidableEq, Repr

/-- Subscription row from D1 (`SubscriptionRecord` in `types.ts`). -/
structure SubscriptionRecord where
  plan : String
  status : String
  deriving DecidableEq, Repr

/-- Free-plan monthly call limit (`usage.ts`). -/
def FREE_LIMIT : Int := 5000

/-- Pro-plan monthly call limit (`usage.ts`). -/
def PRO_LIMIT : Int := 50000

/-- TTL of the L1 usage snapshot (`usage.ts`): 60 seconds. -/
def USAGE_CACHE_TTL : Nat := 60

/-- TTL of the L1 plan snapshot (`usage.ts`): 300 seconds. -/
def PLAN_CACHE_TTL : Nat := 300

/-- A UTC calendar date; `month` and `day` are the 1-based numbers the
source reads off the JS `Date` (`getUTCMonth() + 1`, `getUTCDate()`). -/
structure UTCDate where
  year : Nat
  month : Nat
  day : Nat
  deriving DecidableEq, Repr

/-- JS `String(n).padStart(2, "0")`. -/
def pad2 (n : Nat) : String :=
  if n < 10 then "0" ++ toString n else toString n

/-- Function `getCurrentPeriod` of `usage.ts`: the `YYYY-MM` month period string. -/
def getCurrentPeriod (d : UTCDate) : String :=
  toString d.year ++ "-" ++ pad2 d.month

/-- Function `getCurrentDate` of `usage.ts`: the `YYYY-MM-DD` day string. -/
def getCurrentDate (d : UTCDate) : String :=
  toString d.year ++ "-" ++ pad2 d.month ++ "-" ++ pad2 d.day

/-- The plan-resolution branch of `getPlanInfo` (`usage.ts`): default
`free/5000`; an `active` or `trialing` subscription upgrades to
`enterprise` (unlimited) or `pro` (50000); anything else stays `free`. -/
def resolvePlanInfo (subscription : Option SubscriptionRecord) : PlanInfo :=
  match subscription with
  | some s =>
    if s.status = "active" ∨ s.status = "trialing" then
      if s.plan = "enterprise" then ⟨Plan.enterprise, none⟩
      else if s.plan = "pro" then ⟨Plan.pro, some PRO_LIMIT⟩
      else ⟨Plan.free, some FREE_LIMIT⟩
    else ⟨Plan.free, some FREE_LIMIT⟩
  | none => ⟨Plan.free, some FREE_LIMIT⟩

/-- L1 usage snapshot (`CachedUsage` in `types.ts`). -/
structure CachedUsage where
  count : Int
  period : String
  deriving DecidableEq, Repr

/-- Usage status (`UsageStatus` in `types.ts`).  The wall-clock-derived
`resetAt` string (start of next UTC month) is orthogonal to every claim
and is not modelled. -/
structure UsageStatus where
  allowed : Bool
  plan : Plan
  limit : Option Int
  used : Int
  remaining : Option Int
  deriving DecidableEq, Repr

/-- The D1 rows read and written by `usage.ts`: the `subscription` table
keyed by organization and the `api_usage` table keyed by
`(organization_id, period)`.  The `created_at` / `updated_at` timestamp
columns are elided; only `count` is ever read back. -/
structure UsageEnv where
  subscription : List (String × SubscriptionRecord)
  apiUsage : List ((String × String) × Int)
  deriving DecidableEq, Repr

/-- The `SELECT count FROM api_usage WHERE organization_id = ? AND
period = ?` point query. -/
def usageRowLookup (rows : List ((String × String) × Int))
    (org period : String) : Option Int :=
  alookup rows (org, period)

/-- Function `getPlanInfo` of `usage.ts`: L1 plan cache first; on a miss, query the
subscription row, resolve it and cache the result L1-only with
`PLAN_CACHE_TTL`. -/
def getPlanInfo (env : UsageEnv) (planCache : MemoryCache PlanInfo)
    (now : Nat) (organizationId : String) :
    PlanInfo × MemoryCache PlanInfo :=
  let cacheKey := "plan:" ++ organizationId
  match planCache.get now cacheKey with
  | some cached => (cached, planCache)
  | none =>
    let planInfo := resolvePlanInfo (alookup env.subscription organizationId)
    (planInfo, planCache.set cacheKey planInfo PLAN_CACHE_TTL now)

/-- Function `buildUsageStatus` of `usage.ts`. -/
def buildUsageStatus (count : Int) (planInfo : PlanInfo) : UsageStatus :=
  match planInfo.limit with
  | none => ⟨true, planInfo.plan, none, count, none⟩
  | some l =>
    ⟨decide (count < l), planInfo.plan, some l, count, some (max 0 (l - count))⟩

/-- Result of `checkUsageLimit`: the status plus the two L1 caches it may
update.  The durable store is not part of the outcome: the check only
issues SELECTs and can therefore not modify it. -/
structure CheckOutcome where
  status : UsageStatus
  usageCache : MemoryCache CachedUsage
  planCache : MemoryCache PlanInfo
  deriving DecidableEq, Repr

/-- Function `checkUsageLimit` of `usage.ts` (the period string is derived from the
wall clock in the source and passed explicitly here): L1 usage snapshot
first; on a miss, read the count row and the plan, cache the snapshot
L1-only with `USAGE_CACHE_TTL`, and build the status. -/
def checkUsageLimit (env : UsageEnv) (usageCache : MemoryCache CachedUsage)
    (planCache : MemoryCache PlanInfo) (now : Nat)
    (organizationId period : String) : CheckOutcome :=
  let cacheKey := "usage:" ++ organizationId ++ ":" ++ period
  match usageCache.get now cacheKey with
  | some cached =>
    let r := getPlanInfo env planCache now organizationId
    ⟨buildUsageStatus cached.count r.1, usageCache, r.2⟩
  | none =>
    let usageRow := usageRowLookup env.apiUsage organizationId period
    let r := getPlanInfo env planCache now organizationId
    let count := usageRow.getD 0
    ⟨buildUsageStatus count r.1,
      usageCache.set cacheKey ⟨count, period⟩ USAGE_CACHE_TTL now, r.2⟩

/-- The atomic `INSERT (org, period, count = 1) ON CONFLICT(organization_id,
period) DO UPDATE SET count = count + 1` upsert primitive whose atomicity
is delegated to the durable store. -/
def upsertIncrement (rows : List ((String × String) × Int))
    (org period : String) : List ((String × String) × Int) :=
  match alookup rows (org, period) with
  | some c => aset rows (org, period) (c + 1)
  | none => aset rows (org, period) 1

/-- Function `incrementUsage` of `usage.ts`: on success (`fail = false`) one atomic
D1 batch upserts the monthly and the daily row, then the monthly L1
snapshot is bumped by one if (and only if) it is already cached; the
try/catch swallows a durable-store failure (`fail = true`), which leaves
all state untouched (the batch is transactional, the bump comes after). -/
def incrementUsage (env : UsageEnv) (usageCache : MemoryCache CachedUsage)
    (now : Nat) (d : UTCDate) (organizationId : String) (fail : Bool) :
    UsageEnv × MemoryCache CachedUsage :=
  if fail then (env, usageCache)
  else
    let period := getCurrentPeriod d
    let dailyPeriod := getCurrentDate d
    let rows1 := upsertIncrement env.apiUsage organizationId period
    let rows2 := upsertIncrement rows1 organizationId dailyPeriod
    let cacheKey := "usage:" ++ organizationId ++ ":" ++ period
    let usageCache2 :=
      match usageCache.get now cacheKey with
      | some cached =>
        usageCache.set cacheKey ⟨cached.count + 1, cached.period⟩
          USAGE_CACHE_TTL now
      | none => usageCache
    ({ env with apiUsage := rows2 }, usageCache2)

/-- The durable usage count of one `(org, period)` pair; 0 before the row
is implicitly created by the first increment. -/
def usageCount (env : UsageEnv) (org period : String) : Int :=
  (alookup env.apiUsage (org, period)).getD 0

/-- Combined state of the usage accounter: the durable store plus the two
process-local caches. -/
structure UsageState where
  env : UsageEnv
  usageCache : MemoryCache CachedUsage
  planCache : MemoryCache PlanInfo
  deriving DecidableEq, Repr

/-- One atomic step of the usage accounter as interleaved by concurrent
requests: a read-only quota check or one (possibly failing) increment.
Atomicity of the upsert is delegated to the durable store (spec §5), so an
arbitrary interleaving is an arbitrary sequence of these steps. -/
inductive UsageStep where
  | check (now : Nat) (organizationId period : String)
  | increment (now : Nat) (d : UTCDate) (organizationId : String) (fail : Bool)
  deriving DecidableEq, Repr

/-- Apply one usage-accounter step to the combined state. -/
def applyStep (s : UsageState) : UsageStep → UsageState
  | UsageStep.check now org period =>
    let o := checkUsageLimit s.env s.usageCache s.planCache now org period
    ⟨s.env, o.usageCache, o.planCache⟩
  | UsageStep.increment now d org fail =>
    let r := incrementUsage s.env s.usageCache now d org fail
    ⟨r.1, r.2, s.planCache⟩

/-- Apply a sequence (interleaving) of usage-accounter steps. -/
def applySteps (s : UsageState) (steps : List UsageStep) : UsageState :=
  steps.foldl applyStep s

/-- Prompt row from D1 (`PromptRecord` in `types.ts`). -/
structure PromptRecord where
  id : String
  organization_id : String
  name : String
  description : String
  deleted_at : Option Nat
  deriving DecidableEq, Repr

/-- Prompt-version row from D1 (`PromptVersionRecord` in `types.ts`);
`config` is carried as the raw JSON string (its `JSON.parse` round-trip is
orthogonal to every claim). -/
structure PromptVersionRecord where
  id : String
  prompt_id : String
  major : Option Nat
  minor : Option Nat
  patch : Option Nat
  system_message : Option String
  user_message : Option String
  config : String
  published_at : Option Nat
  deriving DecidableEq, Repr

/-- Cached prompt metadata (`CachedPrompt` in `types.ts`). -/
structure CachedPrompt where
  id : String
  organizationId : String
  name : String
  description : String
  deriving DecidableEq, Repr

/-- Cached version content (`CachedVersion` in `types.ts`). -/
structure CachedVersion where
  version : String
  systemMessage : Option String
  userMessage : Option String
  config : String
  deriving DecidableEq, Repr

/-- Split a character list at every occurrence of a separator character:
the semantics of JS `String.split` with a one-character separator
(`"" ↦ [""]`, `"a::b" ↦ ["a", "", "b"]`). -/
def splitOnChar (sep : Char) : List Char → List (List Char)
  | [] => [[]]
  | c :: rest =>
    match splitOnChar sep rest with
    | [] => [[]]
    | grp :: grps => if c = sep then [] :: grp :: grps else (c :: grp) :: grps

/-- One `(\d+)` capture followed by `Number.parseInt(_, 10)`: at least one
character, all digits, decimal value. -/
def parseDigits (cs : List Char) : Option Nat :=
  if cs ≠ [] ∧ cs.all Char.isDigit then
    some (cs.foldl (fun acc c => acc * 10 + (c.toNat - 48)) 0)
  else none

/-- Function `parseVersion` of `fetch-prompt.ts`: the regex
`^(\d+)\.(\d+)\.(\d+)$` and `parseInt` on the three captures. -/
def parseVersion (version : String) : Option (Nat × Nat × Nat) :=
  match (splitOnChar '.' version.data).map parseDigits with
  | [some a, some b, some c] => some (a, b, c)
  | _ => none

/-- Function `formatVersion` of `fetch-prompt.ts`: `"draft"` for a NULL major,
otherwise `major.(minor ?? 0).(patch ?? 0)`. -/
def formatVersion (major minor patch : Option Nat) : String :=
  match major with
  | none => "draft"
  | some ma =>
    toString ma ++ "." ++ toString (minor.getD 0) ++ "."
      ++ toString (patch.getD 0)

/-- The D1 tables read by `fetch-prompt.ts`. -/
structure PromptDb where
  prompts : List PromptRecord
  versions : List PromptVersionRecord
  deriving DecidableEq, Repr

/-- The `SELECT ... FROM prompt WHERE id = ? AND deleted_at IS NULL` point
query on the prompt table. -/
def queryPrompt (prompts : List PromptRecord) (promptId : String) :
    Option PromptRecord :=
  prompts.find? (fun p => p.id == promptId && p.deleted_at.isNone)

/-- Does a version row match the requested exact published triple
(`buildVersionQuery`, specific-version branch)? -/
def versionMatches (v : PromptVersionRecord) (promptId : String)
    (pv : Nat × Nat × Nat) : Bool :=
  v.prompt_id == promptId && v.major == some pv.1 && v.minor == some pv.2.1
    && v.patch == some pv.2.2 && v.published_at.isSome

/-- SQL `ORDER BY` comparison of nullable columns: NULL sorts below every
number, so `DESC ... LIMIT 1` picks the lexicographic maximum with NULL
smallest. -/
def optNatLt (a b : Option Nat) : Bool :=
  match a, b with
  | none, none => false
  | none, some _ => true
  | some _, none => false
  | some x, some y => decide (x < y)

/-- Strict version ordering used by
`ORDER BY major DESC, minor DESC, patch DESC`. -/
def verLt (v w : PromptVersionRecord) : Bool :=
  optNatLt v.major w.major
    || (v.major == w.major
      && (optNatLt v.minor w.minor
        || (v.minor == w.minor && optNatLt v.patch w.patch)))

/-- The latest-version query (`buildVersionQuery`, no-version branch):
greatest published version of the prompt, if any. -/
def latestPublished (versions : List PromptVersionRecord)
    (promptId : String) : Option PromptVersionRecord :=
  (versions.filter (fun v => v.prompt_id == promptId
      && v.published_at.isSome)).foldl
    (fun acc v =>
      match acc with
      | none => some v
      | some w => if verLt w v then some v else some w)
    none

/-- Query `buildVersionQuery(env, promptId, parsedVersion).first()`. -/
def queryVersion (versions : List PromptVersionRecord) (promptId : String)
    (parsedVersion : Option (Nat × Nat × Nat)) :
    Option PromptVersionRecord :=
  match parsedVersion with
  | some pv => versions.find? (fun v => versionMatches v promptId pv)
  | none => latestPublished versions promptId

/-- Shaping of a prompt row into the cached value (`fetch-prompt.ts`). -/
def shapePrompt (p : PromptRecord) : CachedPrompt :=
  ⟨p.id, p.organization_id, p.name, p.description⟩

/-- Shaping of a version row into the cached value (`fetch-prompt.ts`). -/
def shapeVersion (v : PromptVersionRecord) : CachedVersion :=
  ⟨formatVersion v.major v.minor v.patch, v.system_message, v.user_message,
    v.config⟩

/-- Typed outcome of `fetchPrompt`: the success payload (`PromptResponse`)
or the `{error, code}` object. -/
inductive FetchResult where
  | success (promptId promptName version : String)
      (systemMessage userMessage : Option String) (config : String)
  | failure (error code : String)
  deriving DecidableEq, Repr

/-- TTL of the `latest` version cache entry (`fetch-prompt.ts`):
the L2 default. -/
def LATEST_VERSION_TTL : Nat := L2_TTL

/-- The cache state touched by `fetchPrompt`: the prompt-metadata cache
and the version cache.  Their key prefixes (`prompt:`, `version:`) give
them disjoint key spaces inside the one physical store, so they are
modelled as two typed tiered caches. -/
structure FetchState where
  promptCache : TieredCache CachedPrompt
  versionCache : TieredCache CachedVersion
  deriving DecidableEq, Repr

/-- The version cache key of `fetch-prompt.ts`:
`version:{promptId}:{version | "latest"}`. -/
def versionKeyOf (promptId : String) (version : Option String) : String :=
  "version:" ++ promptId ++ ":"
    ++ (match version with | some s => s | none => "latest")

/-- The tail of `fetchPrompt` after cache/store resolution: verify
organization ownership first, then the presence of version data, then
build the success response. -/
def finishFetch (promptData : CachedPrompt)
    (versionData : Option CachedVersion) (organizationId : String)
    (version : Option String) : FetchResult :=
  if promptData.organizationId ≠ organizationId then
    FetchResult.failure "Prompt not found" "NOT_FOUND"
  else
    match versionData with
    | none =>
      match version with
      | some s =>
        FetchResult.failure ("Version " ++ s ++ " not found")
          "VERSION_NOT_FOUND"
      | none =>
        FetchResult.failure "No published version found" "VERSION_NOT_FOUND"
    | some vd =>
      FetchResult.success promptData.id promptData.name vd.version
        vd.systemMessage vd.userMessage vd.config

/-- The `const kvTtl = version ? 0 : LATEST_VERSION_TTL` of
`fetch-prompt.ts`: the KV TTL argument is always provided on the version
write; 0 (indefinite) for an explicit version, the finite latest TTL
otherwise. -/
def kvTtlOf (version : Option String) : Option Nat :=
  some (match version with | some _ => 0 | none => LATEST_VERSION_TTL)

/-- The body of `fetchPrompt` after the two parallel cache reads returned
`cachedPrompt` and `cachedVersion` (`st1` is the state after those reads):
both cached — answer directly; prompt cached only — query and cache the
version (`kvTtl` 0, i.e. indefinite, for an explicit version and
`LATEST_VERSION_TTL` for latest); prompt not cached — query both, return
the typed `NOT_FOUND` without caching anything when the prompt row is
missing, otherwise cache what was found and finish. -/
def fetchPromptCore (db : PromptDb) (st1 : FetchState) (now : Nat)
    (promptId organizationId : String) (version : Option String)
    (parsedVersion : Option (Nat × Nat × Nat))
    (cachedPrompt : Option CachedPrompt)
    (cachedVersion : Option CachedVersion) :
    Except Unit (FetchResult × FetchState) :=
  let promptCacheKey := "prompt:" ++ promptId
  let versionCacheKey := versionKeyOf promptId version
  match cachedPrompt, cachedVersion with
  | some promptData, some versionData =>
    Except.ok
      (finishFetch promptData (some versionData) organizationId version, st1)
  | some promptData, none =>
    match queryVersion db.versions promptId parsedVersion with
    | some versionResult =>
      let versionData := shapeVersion versionResult
      let w := setInCache st1.versionCache now versionCacheKey versionData
        (kvTtlOf version)
      match w.result with
      | Except.error e => Except.error e
      | Except.ok _ =>
        Except.ok
          (finishFetch promptData (some versionData) organizationId version,
            ⟨st1.promptCache, w.state⟩)
    | none =>
      Except.ok (finishFetch promptData none organizationId version, st1)
  | none, _ =>
    let promptResult := queryPrompt db.prompts promptId
    let versionResult := queryVersion db.versions promptId parsedVersion
    match promptResult with
    | none =>
      Except.ok (FetchResult.failure "Prompt not found" "NOT_FOUND", st1)
    | some pr =>
      let promptData := shapePrompt pr
      match versionResult with
      | some vr =>
        let versionData := shapeVersion vr
        let w1 := setInCache st1.promptCache now promptCacheKey promptData
          (some L2_TTL)
        let w2 := setInCache st1.versionCache now versionCacheKey versionData
          (kvTtlOf version)
        match w1.result, w2.result with
        | Except.error e, _ => Except.error e
        | _, Except.error e => Except.error e
        | Except.ok _, Except.ok _ =>
          Except.ok
            (finishFetch promptData (some versionData) organizationId version,
              ⟨w1.state, w2.state⟩)
      | none =>
        let w1 := setInCache st1.promptCache now promptCacheKey promptData
          (some L2_TTL)
        match w1.result with
        | Except.error e => Except.error e
        | Except.ok _ =>
          Except.ok
            (finishFetch promptData none organizationId version,
              ⟨w1.state, st1.versionCache⟩)

/-- Body of `fetchPrompt` after a successful version parse: issue the two cache
reads concurrently (`Promise.all` runs both; either raising rejects the
pair, after both promotions took effect) and dispatch on their results. -/
def fetchPromptResolved (db : PromptDb) (st : FetchState) (now : Nat)
    (promptId organizationId : String) (version : Option String)
    (parsedVersion : Option (Nat × Nat × Nat)) :
    Except Unit (FetchResult × FetchState) :=
  let r1 := getFromCache st.promptCache now ("prompt:" ++ promptId)
  let r2 := getFromCache st.versionCache now (versionKeyOf promptId version)
  match r1.result, r2.result with
  | Except.error e, _ => Except.error e
  | _, Except.error e => Except.error e
  | Except.ok cachedPrompt, Except.ok cachedVersion =>
    fetchPromptCore db ⟨r1.state, r2.state⟩ now promptId organizationId
      version parsedVersion cachedPrompt cachedVersion

/-- Function `fetchPrompt` of `fetch-prompt.ts`: parse an explicit version early
(fail fast with `BAD_REQUEST` on a malformed one), then resolve through
cache and datastore. -/
def fetchPrompt (db : PromptDb) (st : FetchState) (now : Nat)
    (promptId organizationId : String) (version : Option String) :
    Except Unit (FetchResult × FetchState) :=
  match version with
  | some s =>
    match parseVersion s with
    | none =>
      Except.ok
        (FetchResult.failure "Invalid version format. Use semver (e.g., 1.0.0)"
          "BAD_REQUEST", st)
    | some pv =>
      fetchPromptResolved db st now promptId organizationId (some s) (some pv)
  | none => fetchPromptResolved db st now promptId organizationId none none

/-- The parsed-version argument `fetchPrompt` passes on: `parseVersion`
of the explicit version string, nothing for a latest request. -/
def parsedVersionOf (version : Option String) : Option (Nat × Nat × Nat) :=
  version.bind parseVersion

/-- The prompt data `fetchPrompt` resolves for a prompt id when the cache
read answers `cachedPrompt`: the cached value on a hit, the shaped live
row on a miss. -/
def promptDataOf (db : PromptDb) (promptId : String)
    (cachedPrompt : Option CachedPrompt) : Option CachedPrompt :=
  match cachedPrompt with
  | some p => some p
  | none => (queryPrompt db.prompts promptId).map shapePrompt

/-- The prompt data `fetchPrompt` resolves from a given state: cache
first, live datastore row second (`none` when the read faults — under a
fault-free Shared Tier this case is unreachable). -/
def resolvedPrompt (db : PromptDb) (st : FetchState) (now : Nat)
    (promptId : String) : Option CachedPrompt :=
  match (getFromCache st.promptCache now ("prompt:" ++ promptId)).result with
  | Except.ok cachedPrompt => promptDataOf db promptId cachedPrompt
  | Except.error _ => none

/-- Permissions object (`PermissionsObject` in `types.ts`):
resource → allowed actions. -/
abbrev PermissionsObject := List (String × List String)

/-- API-key row joined with `member` (`ApiKeyWithOrgRecord` in
`types.ts`).  The `permissions` column carries its parsed JSON value
(`none` for a NULL column); `enabled` is the 0/1 SQLite boolean. -/
structure ApiKeyWithOrgRecord where
  id : String
  key : String
  user_id : String
  permissions : Option PermissionsObject
  enabled : Nat
  expires_at : Option Nat
  organization_id : String
  deriving DecidableEq, Repr

/-- Cached API-key data (`CachedApiKey` in `types.ts`). -/
structure CachedApiKey where
  organizationId : String
  permissions : PermissionsObject
  enabled : Bool
  expiresAt : Option Nat
  deriving DecidableEq, Repr

/-- Typed result of `verifyApiKey` (`ApiKeyResult` in `types.ts`). -/
inductive ApiKeyResult where
  | valid (organizationId : String) (permissions : PermissionsObject)
  | invalid (code : String)
  deriving DecidableEq, Repr

/-- Function `hasPermission` of `verify-api-key.ts`: destructure the first two
`split(":")` parts, fail on a missing or empty part (JS falsiness of the
empty string and of `undefined`), then look the action up in the
resource's action list. -/
def hasPermission (permissions : PermissionsObject)
    (requiredPermission : String) : Bool :=
  let parts := splitOnChar ':' requiredPermission.data
  let resource : String := ⟨parts.getD 0 []⟩
  let action : String := ⟨parts.getD 1 []⟩
  if resource = "" || action = "" then false
  else
    match alookup permissions resource with
    | some resourcePermissions => resourcePermissions.contains action
    | none => false

/-- The validation tail of `verifyApiKey`, applied identically to a cached
and to a freshly read value: enabled flag, expiry versus `Date.now()`
(millisecond clock `nowMs`; a zero `expiresAt` is JS-falsy and skips the
check, as in the source), then the permission lookup. -/
def validateKey (cachedData : CachedApiKey) (nowMs : Nat)
    (requiredPermission : String) : ApiKeyResult :=
  if !cachedData.enabled then ApiKeyResult.invalid "DISABLED"
  else if (match cachedData.expiresAt with
      | some e => decide (e ≠ 0) && decide (e < nowMs)
      | none => false) then ApiKeyResult.invalid "EXPIRED"
  else if !hasPermission cachedData.permissions requiredPermission then
    ApiKeyResult.invalid "FORBIDDEN"
  else ApiKeyResult.valid cachedData.organizationId cachedData.permissions

/-- Function `verifyApiKey` of `verify-api-key.ts`.  The SHA-256 `hashApiKey` is an
external crypto capability, passed in as the function `hash`; `apikeys`
are the joined `apikey × member` rows (`LIMIT 1` point query).  Cache
first; on a miss with no row, the typed `INVALID_KEY` with no cache
write; on a miss with a row, shape, cache with the default L2 TTL and
validate. -/
def verifyApiKey (hash : String → String)
    (apikeys : List ApiKeyWithOrgRecord) (tc : TieredCache CachedApiKey)
    (now nowMs : Nat) (apiKey requiredPermission : String) :
    Except Unit (ApiKeyResult × TieredCache CachedApiKey) :=
  let hashedKey := hash apiKey
  let cacheKey := "apikey:" ++ hashedKey
  let r := getFromCache tc now cacheKey
  match r.result with
  | Except.error e => Except.error e
  | Except.ok (some cachedData) =>
    Except.ok (validateKey cachedData nowMs requiredPermission, r.state)
  | Except.ok none =>
    match apikeys.find? (fun a => a.key == hashedKey) with
    | none => Except.ok (ApiKeyResult.invalid "INVALID_KEY", r.state)
    | some result =>
      let cachedData : CachedApiKey :=
        ⟨result.organization_id, result.permissions.getD [],
          result.enabled == 1, result.expires_at⟩
      let w := setInCache r.state now cacheKey cachedData (some L2_TTL)
      match w.result with
      | Except.error e => Except.error e
      | Except.ok _ =>
        Except.ok (validateKey cachedData nowMs requiredPermission, w.state)

/-- An empty fetch state: cold caches, fault-free Shared Tiers. -/
def emptyFetchState : FetchState :=
  ⟨⟨⟨[]⟩, ⟨[], [], []⟩⟩, ⟨⟨[]⟩, ⟨[], [], []⟩⟩⟩

/-- A published version row `1.0.0` of prompt `p1`. -/
def v100 : PromptVersionRecord :=
  ⟨"v1", "p1", some 1, some 0, some 0, none, none, "cfg", some 1⟩

/-- A datastore in which prompt `p1` has no live prompt row (e.g. it was
soft-deleted) while its published version `1.0.0` still exists. -/
def orphanDb : PromptDb :=
  ⟨[], [v100]⟩

/-- A datastore with a live prompt `p1` owned by `o1` and its published
version `1.0.0`. -/
def liveDb : PromptDb :=
  ⟨[⟨"p1", "o1", "n", "d", none⟩], [v100]⟩

/-- A datastore with a live prompt `p1` owned by `o1` and no versions. -/
def foreignDb : PromptDb :=
  ⟨[⟨"p1", "o1", "n", "d", none⟩], []⟩

end Promptly

namespace Promptly

@[simp]
theorem alookup_aset_self {κ β : Type} [DecidableEq κ]
    (rows : List (κ × β)) (k : κ) (v : β) :
    alookup (aset rows k v) k = some v := by
  simp [alookup, aset]

theorem alookup_aset_ne {κ β : Type} [DecidableEq κ]
    (rows : List (κ × β)) (k k2 : κ) (v : β) (h : k2 ≠ k) :
    alookup (aset rows k v) k2 = alookup rows k2 := by
  have hkk2 : ¬k = k2 := fun hc => h hc.symm
  simp [alookup, aset, hkk2]

theorem MemoryCache.get_set_self {α : Type} (c : MemoryCache α) (key : String)
    (v : α) (ttl now : Nat) (h : 0 < ttl) :
    (c.set key v ttl now).get now key = some v := by
  simp [MemoryCache.get, MemoryCache.set, Nat.lt_add_of_pos_right h]

/-- C1 (counterexample): the claim "for any input on which the Shared Tier
get fails, read returns absent" is false at the concrete state `faultyTC`:
the facade read for key `k` propagates the error instead of returning
`none`. -/
theorem c1_counterexample :
    (getFromCache faultyTC 0 "k").result = Except.error () ∧
      (getFromCache faultyTC 0 "k").result ≠ Except.ok none := by
  constructor
  · rfl
  · decide

/-- C1 (amended): the facade does not recover Shared-Tier faults.  On an L1
miss, a raising Shared-Tier `get` propagates out of `getFromCache` as an
error (never as an absent result) and leaves the state unchanged; only an L1
hit shields the caller, returning the value with no Shared-Tier access. -/
theorem c1_read_error_propagates {α : Type} (tc : TieredCache α) (now : Nat)
    (key : String) :
    (tc.memoryCache.get now key = none → key ∈ tc.kv.failGet →
        getFromCache tc now key = ⟨Except.error (), tc, true⟩) ∧
      (∀ v, tc.memoryCache.get now key = some v →
        getFromCache tc now key = ⟨Except.ok (some v), tc, false⟩) := by
  constructor
  · intro hmiss hfail
    simp [getFromCache, hmiss, SharedTier.get, hfail]
  · intro v hhit
    simp [getFromCache, hhit]

/-- C1 (amended, witness): instantiation at the concrete faulty state. -/
theorem c1_read_error_propagates_witness :
    getFromCache faultyTC 0 "k" = ⟨Except.error (), faultyTC, true⟩ :=
  (c1_read_error_propagates faultyTC 0 "k").1 rfl (by decide)

/-- C3: the facade write always writes the Local Tier; with `kvTtl` omitted
it performs no Shared-Tier put and leaves the Shared Tier unchanged; with
`kvTtl = 0` it stores a never-expiring Shared-Tier entry; with a positive
`kvTtl = t` it stores a Shared-Tier entry expiring at `now + t`. -/
theorem c3_setInCache_write_gating {α : Type} (tc : TieredCache α) (now : Nat)
    (key : String) (v : α) :
    ((setInCache tc now key v none).state.kv = tc.kv ∧
        (setInCache tc now key v none).sharedWritten = false ∧
        (setInCache tc now key v none).state.memoryCache.get now key = some v) ∧
      (∀ t : Nat, key ∉ tc.kv.failPut →
        (setInCache tc now key v (some t)).state.memoryCache.get now key
            = some v ∧
          (t = 0 →
            alookup (setInCache tc now key v (some t)).state.kv.entries key
              = some ⟨v, none⟩) ∧
          (0 < t →
            alookup (setInCache tc now key v (some t)).state.kv.entries key
              = some ⟨v, some (now + t)⟩)) := by
  refine ⟨⟨rfl, rfl, ?_⟩, ?_⟩
  · show (tc.memoryCache.set key v L1_TTL now).get now key = some v
    exact MemoryCache.get_set_self _ _ _ _ _ (by norm_num [L1_TTL])
  · intro t hput
    refine ⟨?_, ?_, ?_⟩
    · simp only [setInCache, SharedTier.put, if_neg hput]
      exact MemoryCache.get_set_self _ _ _ _ _ (by norm_num [L1_TTL])
    · intro ht
      subst ht
      simp [setInCache, SharedTier.put, hput]
    · intro ht
      simp [setInCache, SharedTier.put, hput, ht, Option.map]

/-- C3 (witness): concrete instantiation with an empty cache, key `k`,
value `5` and the indefinite sentinel `kvTtl = 0`. -/
theorem c3_setInCache_write_gating_witness :
    alookup (setInCache (⟨⟨[]⟩, ⟨[], [], []⟩⟩ : TieredCache Nat) 7 "k" 5
        (some 0)).state.kv.entries "k" = some ⟨5, none⟩ :=
  ((c3_setInCache_write_gating
    (⟨⟨[]⟩, ⟨[], [], []⟩⟩ : TieredCache Nat) 7 "k" 5).2 0 (by decide)).2.1 rfl

/-- C4: the facade read checks L1 first: an L1 hit is returned with no
Shared-Tier access and no state change; on an L1 miss with an L2 hit the
value is promoted into L1 with the fixed TTL `L1_TTL` and an immediately
following read is answered by L1 with no further Shared-Tier access; a miss
in both tiers returns absent. -/
theorem c4_read_tier_order {α : Type} (tc : TieredCache α) (now : Nat)
    (key : String) :
    (∀ v, tc.memoryCache.get now key = some v →
        getFromCache tc now key = ⟨Except.ok (some v), tc, false⟩) ∧
      (∀ v, tc.memoryCache.get now key = none →
        tc.kv.get now key = Except.ok (some v) →
        (getFromCache tc now key).result = Except.ok (some v) ∧
          alookup (getFromCache tc now key).state.memoryCache.entries key
              = some ⟨v, now + L1_TTL⟩ ∧
          getFromCache (getFromCache tc now key).state now key
            = ⟨Except.ok (some v), (getFromCache tc now key).state, false⟩) ∧
      (tc.memoryCache.get now key = none → tc.kv.get now key = Except.ok none →
        getFromCache tc now key = ⟨Except.ok none, tc, true⟩) := by
  refine ⟨?_, ?_, ?_⟩
  · intro v hhit
    simp [getFromCache, hhit]
  · intro v hmiss hl2
    have hstate : getFromCache tc now key
        = ⟨Except.ok (some v),
            { tc with memoryCache := tc.memoryCache.set key v L1_TTL now },
            true⟩ := by
      simp [getFromCache, hmiss, hl2]
    refine ⟨?_, ?_, ?_⟩
    · rw [hstate]
    · rw [hstate]
      simp [MemoryCache.set]
    · rw [hstate]
      have hhit :
          (tc.memoryCache.set key v L1_TTL now).get now key = some v :=
        MemoryCache.get_set_self _ _ _ _ _ (by norm_num [L1_TTL])
      simp [getFromCache, hhit]
  · intro hmiss hl2
    simp [getFromCache, hmiss, hl2]

/-- C4 (witness): a cold L1 with `k ↦ 5` in L2 promotes on read. -/
theorem c4_read_tier_order_witness :
    (getFromCache (⟨⟨[]⟩, ⟨[("k", ⟨5, none⟩)], [], []⟩⟩ : TieredCache Nat)
        0 "k").result = Except.ok (some 5) :=
  ((c4_read_tier_order (⟨⟨[]⟩, ⟨[("k", ⟨5, none⟩)], [], []⟩⟩ : TieredCache Nat)
      0 "k").2.1 5 rfl (by decide)).1

theorem buildUsageStatus_cases (c : Int) (pi : PlanInfo) :
    (buildUsageStatus c pi).used = c ∧
      (buildUsageStatus c pi).limit = pi.limit ∧
      (buildUsageStatus c pi).plan = pi.plan ∧
      ((buildUsageStatus c pi).limit = none →
        (buildUsageStatus c pi).allowed = true ∧
          (buildUsageStatus c pi).remaining = none) ∧
      (∀ l : Int, (buildUsageStatus c pi).limit = some l →
        (buildUsageStatus c pi).allowed = decide ((buildUsageStatus c pi).used < l) ∧
          (buildUsageStatus c pi).remaining
              = some (max 0 (l - (buildUsageStatus c pi).used)) ∧
          ((buildUsageStatus c pi).used = l - 1 →
            (buildUsageStatus c pi).allowed = true ∧
              (buildUsageStatus c pi).remaining = some 1) ∧
          ((buildUsageStatus c pi).used = l →
            (buildUsageStatus c pi).allowed = false ∧
              (buildUsageStatus c pi).remaining = some 0)) := by
  rcases pi with ⟨p, lim⟩
  cases lim with
  | none => simp [buildUsageStatus]
  | some l0 =>
    refine ⟨rfl, rfl, rfl, ?_, ?_⟩
    · intro h
      exact absurd h (by simp [buildUsageStatus])
    · intro l hl
      have hll : l0 = l := by simpa [buildUsageStatus] using hl
      subst hll
      refine ⟨rfl, rfl, ?_, ?_⟩
      · intro hc
        have hc2 : c = l0 - 1 := hc
        constructor
        · show decide (c < l0) = true
          simp only [decide_eq_true_eq]
          omega
        · show some (max 0 (l0 - c)) = some 1
          rw [hc2]
          norm_num
      · intro hc
        have hc2 : c = l0 := hc
        constructor
        · show decide (c < l0) = false
          simp only [decide_eq_false_iff_not]
          omega
        · show some (max 0 (l0 - c)) = some 0
          rw [hc2]
          norm_num

/-- C2: the status returned by `checkUsageLimit` reports `used` equal to the
resolved count (L1 snapshot, else durable row, else 0), `limit` and `plan`
equal to the resolved plan, `allowed = (limit is null) OR (used < limit)`,
and `remaining = null` for a null limit and `max 0 (limit - used)`
otherwise; in particular `allowed = true, remaining = 1` at `used = L - 1`,
`allowed = false, remaining = 0` at `used = L`, and a null limit allows
every count with a null `remaining`. -/
theorem c2_checkUsageLimit_formula (env : UsageEnv)
    (usageCache : MemoryCache CachedUsage) (planCache : MemoryCache PlanInfo)
    (now : Nat) (org period : String) (st : UsageStatus)
    (hst : st = (checkUsageLimit env usageCache planCache now org period).status) :
    (st.used =
        match usageCache.get now ("usage:" ++ org ++ ":" ++ period) with
        | some cached => cached.count
        | none => (usageRowLookup env.apiUsage org period).getD 0) ∧
      st.limit = (getPlanInfo env planCache now org).1.limit ∧
      st.plan = (getPlanInfo env planCache now org).1.plan ∧
      (st.limit = none → st.allowed = true ∧ st.remaining = none) ∧
      (∀ l : Int, st.limit = some l →
        st.allowed = decide (st.used < l) ∧
          st.remaining = some (max 0 (l - st.used)) ∧
          (st.used = l - 1 → st.allowed = true ∧ st.remaining = some 1) ∧
          (st.used = l → st.allowed = false ∧ st.remaining = some 0)) := by
  cases hmem : usageCache.get now ("usage:" ++ org ++ ":" ++ period) with
  | some cached =>
    have hc : st = buildUsageStatus cached.count
        (getPlanInfo env planCache now org).1 := by
      rw [hst]; simp [checkUsageLimit, hmem]
    obtain ⟨hused, hlim, hplan, hnone, hsome⟩ :=
      buildUsageStatus_cases cached.count (getPlanInfo env planCache now org).1
    rw [← hc] at hused hlim hplan hnone hsome
    exact ⟨hused, hlim, hplan, hnone, hsome⟩
  | none =>
    have hc : st = buildUsageStatus
        ((usageRowLookup env.apiUsage org period).getD 0)
        (getPlanInfo env planCache now org).1 := by
      rw [hst]; simp [checkUsageLimit, hmem]
    obtain ⟨hused, hlim, hplan, hnone, hsome⟩ :=
      buildUsageStatus_cases ((usageRowLookup env.apiUsage org period).getD 0)
        (getPlanInfo env planCache now org).1
    rw [← hc] at hused hlim hplan hnone hsome
    exact ⟨hused, hlim, hplan, hnone, hsome⟩

/-- C2 (witness): pro plan (limit 50000) at count 49999 is allowed with one
call remaining. -/
theorem c2_checkUsageLimit_formula_witness :
    (checkUsageLimit ⟨[("o", ⟨"pro", "active"⟩)], [(("o", "2026-02"), 49999)]⟩
        ⟨[]⟩ ⟨[]⟩ 0 "o" "2026-02").status.allowed = true ∧
      (checkUsageLimit ⟨[("o", ⟨"pro", "active"⟩)],
          [(("o", "2026-02"), 49999)]⟩
        ⟨[]⟩ ⟨[]⟩ 0 "o" "2026-02").status.remaining = some 1 := by
  have h := c2_checkUsageLimit_formula
    ⟨[("o", ⟨"pro", "active"⟩)], [(("o", "2026-02"), 49999)]⟩
    ⟨[]⟩ ⟨[]⟩ 0 "o" "2026-02" _ rfl
  have hl := h.2.2.2.2 50000 (by decide)
  exact hl.2.2.1 (by decide)

theorem usageCount_upsert_self (rows : List ((String × String) × Int))
    (org period : String) :
    (alookup (upsertIncrement rows org period) (org, period)).getD 0
      = (alookup rows (org, period)).getD 0 + 1 := by
  unfold upsertIncrement
  cases h : alookup rows (org, period) with
  | some c => simp [h]
  | none => simp [h]

theorem alookup_upsert_ne (rows : List ((String × String) × Int))
    (org period : String) (k : String × String) (h : k ≠ (org, period)) :
    alookup (upsertIncrement rows org period) k = alookup rows k := by
  unfold upsertIncrement
  cases h2 : alookup rows (org, period) with
  | some c => rw [alookup_aset_ne _ _ _ _ h]
  | none => rw [alookup_aset_ne _ _ _ _ h]

theorem usageCount_upsert_mono (rows : List ((String × String) × Int))
    (org period org2 period2 : String) :
    (alookup rows (org2, period2)).getD 0
      ≤ (alookup (upsertIncrement rows org period) (org2, period2)).getD 0 := by
  by_cases hk : (org2, period2) = (org, period)
  · rw [hk, usageCount_upsert_self]
    omega
  · rw [alookup_upsert_ne _ _ _ _ hk]

theorem usageCount_step_mono (s : UsageState) (step : UsageStep)
    (org period : String) :
    usageCount s.env org period ≤ usageCount (applyStep s step).env org period := by
  cases step with
  | check now org2 period2 => exact le_refl _
  | increment now d org2 fail =>
    cases fail with
    | true => exact le_refl _
    | false =>
      show usageCount s.env org period ≤
        (alookup (upsertIncrement
          (upsertIncrement s.env.apiUsage org2 (getCurrentPeriod d))
          org2 (getCurrentDate d)) (org, period)).getD 0
      calc usageCount s.env org period
          ≤ (alookup (upsertIncrement s.env.apiUsage org2 (getCurrentPeriod d))
              (org, period)).getD 0 :=
            usageCount_upsert_mono _ _ _ _ _
        _ ≤ _ := usageCount_upsert_mono _ _ _ _ _

theorem usageCount_steps_mono (s : UsageState) (steps : List UsageStep)
    (org period : String) :
    usageCount s.env org period
      ≤ usageCount (applySteps s steps).env org period := by
  induction steps generalizing s with
  | nil => exact le_refl _
  | cons hd tl ih =>
    calc usageCount s.env org period
        ≤ usageCount (applyStep s hd).env org period :=
          usageCount_step_mono s hd org period
      _ ≤ _ := ih (applyStep s hd)

theorem getCurrentDate_ne_getCurrentPeriod (d : UTCDate) :
    getCurrentDate d ≠ getCurrentPeriod d := by
  intro h
  have hlen := congrArg String.length h
  have hdash : ("-" : String).length = 1 := rfl
  simp only [getCurrentDate, getCurrentPeriod, String.length_append,
    hdash] at hlen
  omega

theorem usageCount_increment_succ (s : UsageState) (now : Nat) (d : UTCDate)
    (org : String) :
    usageCount (applyStep s (UsageStep.increment now d org false)).env
        org (getCurrentPeriod d)
      = usageCount s.env org (getCurrentPeriod d) + 1 := by
  show (alookup (upsertIncrement
      (upsertIncrement s.env.apiUsage org (getCurrentPeriod d))
      org (getCurrentDate d)) (org, getCurrentPeriod d)).getD 0 = _
  rw [alookup_upsert_ne]
  · exact usageCount_upsert_self _ _ _
  · intro hc
    exact getCurrentDate_ne_getCurrentPeriod d
      (congrArg Prod.snd hc).symm

/-- C5: the durable count is non-decreasing under every interleaving of
quota checks and increments; a quota check leaves the durable store
untouched; and n successful increments for the same organization and date
add exactly n to the monthly count — no lost updates. -/
theorem c5_usage_monotonic :
    (∀ (s : UsageState) (steps : List UsageStep) (org period : String),
        usageCount s.env org period
          ≤ usageCount (applySteps s steps).env org period) ∧
      (∀ (s : UsageState) (now : Nat) (org period : String),
        (applyStep s (UsageStep.check now org period)).env = s.env) ∧
      (∀ (s : UsageState) (n : Nat) (now : Nat) (d : UTCDate) (org : String),
        usageCount (applySteps s
            (List.replicate n (UsageStep.increment now d org false))).env
            org (getCurrentPeriod d)
          = usageCount s.env org (getCurrentPeriod d) + n) := by
  refine ⟨usageCount_steps_mono, fun s now org period => rfl, ?_⟩
  intro s n now d org
  induction n generalizing s with
  | zero => simp [applySteps]
  | succ m ih =>
    rw [List.replicate_succ]
    show usageCount (applySteps
        (applyStep s (UsageStep.increment now d org false))
        (List.replicate m (UsageStep.increment now d org false))).env
        org (getCurrentPeriod d) = _
    rw [ih (applyStep s (UsageStep.increment now d org false)),
      usageCount_increment_succ]
    push_cast
    ring

/-- C8: one successful `incrementUsage` performs exactly the one-batch
double upsert (monthly row and daily row of the same `api_usage` table,
each bumped by one, every other row and the subscription table untouched);
the L1 monthly snapshot is bumped only when already present (the bump never
creates a snapshot); and the quota check depends on the durable store only
through the subscription table and the single monthly row it asks for, so
the daily row is write-only. -/
theorem c8_increment_effects (env : UsageEnv)
    (usageCache : MemoryCache CachedUsage) (now : Nat) (d : UTCDate)
    (org : String) (r : UsageEnv × MemoryCache CachedUsage)
    (hr : r = incrementUsage env usageCache now d org false) :
    r.1.apiUsage = upsertIncrement
        (upsertIncrement env.apiUsage org (getCurrentPeriod d))
        org (getCurrentDate d) ∧
      r.1.subscription = env.subscription ∧
      usageCount r.1 org (getCurrentPeriod d)
          = usageCount env org (getCurrentPeriod d) + 1 ∧
      usageCount r.1 org (getCurrentDate d)
          = usageCount env org (getCurrentDate d) + 1 ∧
      (∀ k : String × String, k ≠ (org, getCurrentPeriod d) →
        k ≠ (org, getCurrentDate d) →
        alookup r.1.apiUsage k = alookup env.apiUsage k) ∧
      (∀ cu, usageCache.get now ("usage:" ++ org ++ ":" ++ getCurrentPeriod d)
          = some cu →
        r.2.get now ("usage:" ++ org ++ ":" ++ getCurrentPeriod d)
          = some ⟨cu.count + 1, cu.period⟩) ∧
      (usageCache.get now ("usage:" ++ org ++ ":" ++ getCurrentPeriod d)
          = none → r.2 = usageCache) ∧
      (∀ (envA envB : UsageEnv) (uc : MemoryCache CachedUsage)
          (pc : MemoryCache PlanInfo) (now2 : Nat) (org2 period2 : String),
        envA.subscription = envB.subscription →
        usageRowLookup envA.apiUsage org2 period2
            = usageRowLookup envB.apiUsage org2 period2 →
        checkUsageLimit envA uc pc now2 org2 period2
          = checkUsageLimit envB uc pc now2 org2 period2) := by
  have hplan : ∀ (envA envB : UsageEnv) (pc : MemoryCache PlanInfo)
      (now2 : Nat) (org2 : String),
      envA.subscription = envB.subscription →
      getPlanInfo envA pc now2 org2 = getPlanInfo envB pc now2 org2 := by
    intro envA envB pc now2 org2 hsub
    unfold getPlanInfo
    rw [hsub]
  subst hr
  refine ⟨?_, ?_, ?_, ?_, ?_, ?_, ?_, ?_⟩
  · cases hmem : usageCache.get now ("usage:" ++ org ++ ":" ++ getCurrentPeriod d) <;>
      simp [incrementUsage, hmem]
  · cases hmem : usageCache.get now ("usage:" ++ org ++ ":" ++ getCurrentPeriod d) <;>
      simp [incrementUsage, hmem]
  · show (alookup (upsertIncrement (upsertIncrement env.apiUsage org
        (getCurrentPeriod d)) org (getCurrentDate d))
        (org, getCurrentPeriod d)).getD 0 = _
    rw [alookup_upsert_ne]
    · exact usageCount_upsert_self _ _ _
    · intro hc
      exact getCurrentDate_ne_getCurrentPeriod d (congrArg Prod.snd hc).symm
  · show (alookup (upsertIncrement (upsertIncrement env.apiUsage org
        (getCurrentPeriod d)) org (getCurrentDate d))
        (org, getCurrentDate d)).getD 0 = _
    rw [usageCount_upsert_self,
      alookup_upsert_ne _ _ _ _
        (fun hc => getCurrentDate_ne_getCurrentPeriod d
          (congrArg Prod.snd hc))]
    rfl
  · intro k hk1 hk2
    show alookup (upsertIncrement (upsertIncrement env.apiUsage org
        (getCurrentPeriod d)) org (getCurrentDate d)) k = _
    rw [alookup_upsert_ne _ _ _ _ hk2, alookup_upsert_ne _ _ _ _ hk1]
  · intro cu hcu
    show (match usageCache.get now
        ("usage:" ++ org ++ ":" ++ getCurrentPeriod d) with
      | some cached => usageCache.set
          ("usage:" ++ org ++ ":" ++ getCurrentPeriod d)
          ⟨cached.count + 1, cached.period⟩ USAGE_CACHE_TTL now
      | none => usageCache).get now
        ("usage:" ++ org ++ ":" ++ getCurrentPeriod d) = _
    rw [hcu]
    exact MemoryCache.get_set_self _ _ _ _ _ (by norm_num [USAGE_CACHE_TTL])
  · intro hnone
    show (match usageCache.get now
        ("usage:" ++ org ++ ":" ++ getCurrentPeriod d) with
      | some cached => usageCache.set
          ("usage:" ++ org ++ ":" ++ getCurrentPeriod d)
          ⟨cached.count + 1, cached.period⟩ USAGE_CACHE_TTL now
      | none => usageCache) = usageCache
    rw [hnone]
  · intro envA envB uc pc now2 org2 period2 hsub husage
    unfold checkUsageLimit
    rw [hplan envA envB pc now2 org2 hsub, husage]

/-- C8 (witness): concrete increment for org `o` on 2026-02-11 starting
from a durable count of 3 and an empty L1. -/
theorem c8_increment_effects_witness :
    (incrementUsage ⟨[], [(("o", "2026-02"), 3)]⟩ ⟨[]⟩ 0 ⟨2026, 2, 11⟩
        "o" false).1.apiUsage
      = upsertIncrement (upsertIncrement [(("o", "2026-02"), 3)] "o"
          (getCurrentPeriod ⟨2026, 2, 11⟩)) "o"
          (getCurrentDate ⟨2026, 2, 11⟩) :=
  (c8_increment_effects ⟨[], [(("o", "2026-02"), 3)]⟩ ⟨[]⟩ 0 ⟨2026, 2, 11⟩
    "o" _ rfl).1

/-- C10: plan resolution defaults closed.  On an L1 miss, `getPlanInfo`
resolves the subscription row through `resolvePlanInfo`, which yields
`free/5000` whenever the row is absent, its status is neither `active` nor
`trialing`, or its plan string is unrecognized; yields the unlimited
(null) limit only for an `enterprise` plan with status `active` or
`trialing`; and yields `pro/50000` for `pro` under the same statuses. -/
theorem c10_plan_default_closed (env : UsageEnv)
    (planCache : MemoryCache PlanInfo) (now : Nat) (org : String)
    (hmiss : planCache.get now ("plan:" ++ org) = none) :
    (getPlanInfo env planCache now org).1
        = resolvePlanInfo (alookup env.subscription org) ∧
      (∀ sub : Option SubscriptionRecord,
        (sub = none → resolvePlanInfo sub = ⟨Plan.free, some FREE_LIMIT⟩) ∧
          (∀ s, sub = some s → s.status ≠ "active" → s.status ≠ "trialing" →
            resolvePlanInfo sub = ⟨Plan.free, some FREE_LIMIT⟩) ∧
          (∀ s, sub = some s → s.plan ≠ "enterprise" → s.plan ≠ "pro" →
            resolvePlanInfo sub = ⟨Plan.free, some FREE_LIMIT⟩) ∧
          (∀ s, sub = some s →
            (s.status = "active" ∨ s.status = "trialing") →
            s.plan = "enterprise" →
            resolvePlanInfo sub = ⟨Plan.enterprise, none⟩) ∧
          (∀ s, sub = some s →
            (s.status = "active" ∨ s.status = "trialing") →
            s.plan = "pro" →
            resolvePlanInfo sub = ⟨Plan.pro, some PRO_LIMIT⟩) ∧
          ((resolvePlanInfo sub).limit = none →
            ∃ s, sub = some s ∧ s.plan = "enterprise" ∧
              (s.status = "active" ∨ s.status = "trialing"))) := by
  constructor
  · simp [getPlanInfo, hmiss]
  · intro sub
    refine ⟨?_, ?_, ?_, ?_, ?_, ?_⟩
    · intro h; subst h; rfl
    · intro s h hst1 hst2
      subst h
      simp [resolvePlanInfo, hst1, hst2]
    · intro s h hp1 hp2
      subst h
      by_cases hst : s.status = "active" ∨ s.status = "trialing" <;>
        simp [resolvePlanInfo, hst, hp1, hp2]
    · intro s h hst hp
      subst h
      simp [resolvePlanInfo, hst, hp]
    · intro s h hst hp
      subst h
      by_cases he : s.plan = "enterprise"
      · rw [hp] at he; exact absurd he (by decide)
      · simp [resolvePlanInfo, hst, he, hp]
    · intro hlim
      cases sub with
      | none => simp [resolvePlanInfo, FREE_LIMIT] at hlim
      | some s =>
        by_cases hst : s.status = "active" ∨ s.status = "trialing"
        · by_cases he : s.plan = "enterprise"
          · exact ⟨s, rfl, he, hst⟩
          · by_cases hp : s.plan = "pro"
            · simp [resolvePlanInfo, hst, he, hp, PRO_LIMIT] at hlim
            · simp [resolvePlanInfo, hst, he, hp, FREE_LIMIT] at hlim
        · simp [resolvePlanInfo, hst, FREE_LIMIT] at hlim

theorem getFromCache_state_kv {α : Type} (tc : TieredCache α) (now : Nat)
    (key : String) : (getFromCache tc now key).state.kv = tc.kv := by
  unfold getFromCache
  cases hm : tc.memoryCache.get now key with
  | some v => rfl
  | none =>
    cases hk : tc.kv.get now key with
    | error e => rfl
    | ok o => cases o <;> rfl

theorem getFromCache_ok_of_noFail {α : Type} (tc : TieredCache α) (now : Nat)
    (key : String) (h : tc.kv.failGet = []) :
    ∃ o, (getFromCache tc now key).result = Except.ok o := by
  unfold getFromCache
  cases hm : tc.memoryCache.get now key with
  | some v => exact ⟨some v, rfl⟩
  | none =>
    have hget : tc.kv.get now key = Except.ok (tc.kv.getRaw now key) := by
      simp [SharedTier.get, h]
    rw [hget]
    cases hr : tc.kv.getRaw now key with
    | some v => exact ⟨some v, rfl⟩
    | none => exact ⟨none, rfl⟩

theorem getFromCache_none_state {α : Type} (tc : TieredCache α) (now : Nat)
    (key : String)
    (h : (getFromCache tc now key).result = Except.ok none) :
    (getFromCache tc now key).state = tc := by
  unfold getFromCache at h ⊢
  cases hm : tc.memoryCache.get now key with
  | some v => simp [hm] at h
  | none =>
    rw [hm] at h
    cases hk : tc.kv.get now key with
    | error e => simp [hk] at h
    | ok o =>
      rw [hk] at h
      cases o with
      | some v => simp at h
      | none => rfl

theorem setInCache_ok_of_noFail {α : Type} (tc : TieredCache α) (now : Nat)
    (key : String) (v : α) (kvTtl : Option Nat)
    (h : tc.kv.failPut = []) :
    (setInCache tc now key v kvTtl).result = Except.ok () := by
  cases kvTtl with
  | none => rfl
  | some t => simp [setInCache, SharedTier.put, h]

theorem setInCache_some_entries {α : Type} (tc : TieredCache α) (now : Nat)
    (key : String) (v : α) (t : Nat) (h : tc.kv.failPut = []) :
    (setInCache tc now key v (some t)).state.kv.entries
      = aset tc.kv.entries key
          ⟨v, if 0 < t then some (now + t) else none⟩ := by
  simp only [setInCache, SharedTier.put, h]
  by_cases h0 : 0 < t <;> simp [h0]

theorem getRaw_of_noExpiry {α : Type} (s : SharedTier α) (key : String)
    (v : α) (h : alookup s.entries key = some ⟨v, none⟩) :
    ∀ t, s.getRaw t key = some v := by
  intro t
  simp [SharedTier.getRaw, h]

theorem finishFetch_mismatch (pd : CachedPrompt) (vd : Option CachedVersion)
    (organizationId : String) (version : Option String)
    (h : pd.organizationId ≠ organizationId) :
    finishFetch pd vd organizationId version
      = FetchResult.failure "Prompt not found" "NOT_FOUND" := by
  simp [finishFetch, h]

theorem fetchPrompt_eq_resolved (db : PromptDb) (st : FetchState) (now : Nat)
    (promptId organizationId : String) (version : Option String)
    (hver : ∀ s, version = some s → parseVersion s ≠ none) :
    fetchPrompt db st now promptId organizationId version
      = fetchPromptResolved db st now promptId organizationId version
          (parsedVersionOf version) := by
  cases version with
  | none => rfl
  | some s =>
    cases hp : parseVersion s with
    | none => exact absurd hp (hver s rfl)
    | some pv => simp [fetchPrompt, hp, parsedVersionOf]

theorem fetchPromptResolved_eq_core (db : PromptDb) (st : FetchState)
    (now : Nat) (promptId organizationId : String) (version : Option String)
    (parsedVersion : Option (Nat × Nat × Nat))
    (cp : Option CachedPrompt) (cv : Option CachedVersion)
    (h1 : (getFromCache st.promptCache now ("prompt:" ++ promptId)).result
      = Except.ok cp)
    (h2 : (getFromCache st.versionCache now
        (versionKeyOf promptId version)).result = Except.ok cv) :
    fetchPromptResolved db st now promptId organizationId version
        parsedVersion
      = fetchPromptCore db
          ⟨(getFromCache st.promptCache now ("prompt:" ++ promptId)).state,
            (getFromCache st.versionCache now
              (versionKeyOf promptId version)).state⟩
          now promptId organizationId version parsedVersion cp cv := by
  simp only [fetchPromptResolved]
  rw [h1, h2]

theorem fetchPromptCore_shape (db : PromptDb) (st1 : FetchState) (now : Nat)
    (promptId organizationId : String) (version : Option String)
    (parsedVersion : Option (Nat × Nat × Nat))
    (cp : Option CachedPrompt) (cv : Option CachedVersion)
    (hfp1 : st1.promptCache.kv.failPut = [])
    (hfp2 : st1.versionCache.kv.failPut = []) :
    (∀ pd, promptDataOf db promptId cp = some pd →
      ∃ st2 vd,
        fetchPromptCore db st1 now promptId organizationId version
            parsedVersion cp cv
          = Except.ok (finishFetch pd vd organizationId version, st2)) ∧
    (promptDataOf db promptId cp = none →
      ∃ st2,
        fetchPromptCore db st1 now promptId organizationId version
            parsedVersion cp cv
          = Except.ok
              (FetchResult.failure "Prompt not found" "NOT_FOUND", st2)) := by
  cases cp with
  | some p =>
    constructor
    · intro pd hpd
      have hp : p = pd := by simpa [promptDataOf] using hpd
      subst hp
      cases cv with
      | some vd0 => exact ⟨st1, some vd0, rfl⟩
      | none =>
        cases hq : queryVersion db.versions promptId parsedVersion with
        | some vr =>
          have hw : (setInCache st1.versionCache now
              (versionKeyOf promptId version) (shapeVersion vr)
              (kvTtlOf version)).result = Except.ok () :=
            setInCache_ok_of_noFail _ _ _ _ _ hfp2
          refine ⟨⟨st1.promptCache, (setInCache st1.versionCache now
              (versionKeyOf promptId version) (shapeVersion vr)
              (kvTtlOf version)).state⟩, some (shapeVersion vr), ?_⟩
          simp only [fetchPromptCore, hq]
          rw [hw]
        | none =>
          refine ⟨st1, none, ?_⟩
          simp only [fetchPromptCore, hq]
    · intro hnone
      simp [promptDataOf] at hnone
  | none =>
    constructor
    · intro pd hpd
      obtain ⟨pr, hpr, hsh⟩ :
          ∃ pr, queryPrompt db.prompts promptId = some pr
            ∧ shapePrompt pr = pd := by
        simpa [promptDataOf] using hpd
      subst hsh
      cases hq : queryVersion db.versions promptId parsedVersion with
      | some vr =>
        have hw1 : (setInCache st1.promptCache now ("prompt:" ++ promptId)
            (shapePrompt pr) (some L2_TTL)).result = Except.ok () :=
          setInCache_ok_of_noFail _ _ _ _ _ hfp1
        have hw2 : (setInCache st1.versionCache now
            (versionKeyOf promptId version) (shapeVersion vr)
            (kvTtlOf version)).result = Except.ok () :=
          setInCache_ok_of_noFail _ _ _ _ _ hfp2
        refine ⟨⟨(setInCache st1.promptCache now ("prompt:" ++ promptId)
            (shapePrompt pr) (some L2_TTL)).state,
            (setInCache st1.versionCache now (versionKeyOf promptId version)
              (shapeVersion vr) (kvTtlOf version)).state⟩,
          some (shapeVersion vr), ?_⟩
        simp only [fetchPromptCore, hpr, hq]
        rw [hw1, hw2]
      | none =>
        have hw1 : (setInCache st1.promptCache now ("prompt:" ++ promptId)
            (shapePrompt pr) (some L2_TTL)).result = Except.ok () :=
          setInCache_ok_of_noFail _ _ _ _ _ hfp1
        refine ⟨⟨(setInCache st1.promptCache now ("prompt:" ++ promptId)
            (shapePrompt pr) (some L2_TTL)).state, st1.versionCache⟩,
          none, ?_⟩
        simp only [fetchPromptCore, hpr, hq]
        rw [hw1]
    · intro hnone
      have hqp : queryPrompt db.prompts promptId = none := by
        simpa [promptDataOf] using hnone
      refine ⟨st1, ?_⟩
      simp only [fetchPromptCore, hqp]

theorem fetchPromptCore_version_write (db : PromptDb) (st1 : FetchState)
    (now : Nat) (promptId organizationId : String) (version : Option String)
    (parsedVersion : Option (Nat × Nat × Nat)) (cp : Option CachedPrompt)
    (vr : PromptVersionRecord)
    (hfp1 : st1.promptCache.kv.failPut = [])
    (hfp2 : st1.versionCache.kv.failPut = [])
    (hq : queryVersion db.versions promptId parsedVersion = some vr)
    (hpd : promptDataOf db promptId cp ≠ none) :
    ∀ res st2,
      fetchPromptCore db st1 now promptId organizationId version
          parsedVersion cp none = Except.ok (res, st2) →
      alookup st2.versionCache.kv.entries (versionKeyOf promptId version)
        = some ⟨shapeVersion vr,
            match version with
            | some _ => none
            | none => some (now + LATEST_VERSION_TTL)⟩ := by
  intro res st2 h
  have hfinal : st2.versionCache = (setInCache st1.versionCache now
      (versionKeyOf promptId version) (shapeVersion vr)
      (kvTtlOf version)).state := by
    cases cp with
    | some p =>
      have hw : (setInCache st1.versionCache now
          (versionKeyOf promptId version) (shapeVersion vr)
          (kvTtlOf version)).result = Except.ok () :=
        setInCache_ok_of_noFail _ _ _ _ _ hfp2
      simp only [fetchPromptCore, hq] at h
      rw [hw] at h
      have h2 := congrArg Prod.snd (Except.ok.inj h)
      exact (congrArg FetchState.versionCache h2).symm
    | none =>
      obtain ⟨pr, hpr⟩ : ∃ pr, queryPrompt db.prompts promptId = some pr := by
        cases hqp : queryPrompt db.prompts promptId with
        | some pr => exact ⟨pr, rfl⟩
        | none => exact absurd (by simp [promptDataOf, hqp]) hpd
      have hw1 : (setInCache st1.promptCache now ("prompt:" ++ promptId)
          (shapePrompt pr) (some L2_TTL)).result = Except.ok () :=
        setInCache_ok_of_noFail _ _ _ _ _ hfp1
      have hw2 : (setInCache st1.versionCache now
          (versionKeyOf promptId version) (shapeVersion vr)
          (kvTtlOf version)).result = Except.ok () :=
        setInCache_ok_of_noFail _ _ _ _ _ hfp2
      simp only [fetchPromptCore, hpr, hq] at h
      rw [hw1, hw2] at h
      have h2 := congrArg Prod.snd (Except.ok.inj h)
      exact (congrArg FetchState.versionCache h2).symm
  rw [hfinal]
  cases version with
  | some s =>
    have hk : kvTtlOf (some s) = some 0 := rfl
    rw [hk, setInCache_some_entries _ _ _ _ _ hfp2]
    simp
  | none =>
    have hk : kvTtlOf none = some LATEST_VERSION_TTL := rfl
    rw [hk, setInCache_some_entries _ _ _ _ _ hfp2]
    simp [LATEST_VERSION_TTL, L2_TTL]

/-- C10 (witness): a cancelled enterprise subscription resolves to
`free/5000`, not to the unlimited plan. -/
theorem c10_plan_default_closed_witness :
    (getPlanInfo ⟨[("o", ⟨"enterprise", "canceled"⟩)], []⟩ ⟨[]⟩ 0 "o").1
      = ⟨Plan.free, some FREE_LIMIT⟩ := by
  have h := c10_plan_default_closed ⟨[("o", ⟨"enterprise", "canceled"⟩)], []⟩
    ⟨[]⟩ 0 "o" rfl
  rw [h.1]
  exact ((h.2 (alookup [("o", ⟨"enterprise", "canceled"⟩)] "o")).2.1
    ⟨"enterprise", "canceled"⟩ (by decide) (by decide) (by decide))


/-- C6 (counterexample): at this concrete input `fetchPrompt` is called
with the explicit version string `1.0.0` and that published version of
`p1` is found in the datastore, yet no version cache entry is written —
the call returns `NOT_FOUND` with the state untouched, because the prompt
row itself is gone.  The claim as stated is therefore false. -/
theorem c6_counterexample :
    fetchPrompt orphanDb emptyFetchState 0 "p1" "o" (some "1.0.0")
        = Except.ok
            (FetchResult.failure "Prompt not found" "NOT_FOUND",
              emptyFetchState) ∧
      queryVersion orphanDb.versions "p1" (parsedVersionOf (some "1.0.0"))
        = some v100 ∧
      alookup emptyFetchState.versionCache.kv.entries "version:p1:1.0.0"
        = none := by
  refine ⟨?_, ?_, rfl⟩ <;> decide

/-- C6 (amended): when `fetchPrompt` is called with a well-formed explicit
version string, the version-cache read misses, the published version is
found in the datastore and the prompt itself resolves (cached or live
row), the version entry is written through the Shared Tier with the
indefinite sentinel `kvTtl = 0` — stored with no expiry and never treated
as expired at any later instant; with no version, the entry is written
under `version:{promptId}:latest` with the finite `LATEST_VERSION_TTL`
expiry instead. -/
theorem c6_version_ttl (db : PromptDb) (st : FetchState) (now : Nat)
    (promptId organizationId : String) (version : Option String)
    (vr : PromptVersionRecord)
    (hver : ∀ s, version = some s → parseVersion s ≠ none)
    (hfg1 : st.promptCache.kv.failGet = [])
    (hfp1 : st.promptCache.kv.failPut = [])
    (hfp2 : st.versionCache.kv.failPut = [])
    (hv2 : (getFromCache st.versionCache now
        (versionKeyOf promptId version)).result = Except.ok none)
    (hq : queryVersion db.versions promptId (parsedVersionOf version)
      = some vr)
    (hpd : resolvedPrompt db st now promptId ≠ none) :
    ∀ res st2,
      fetchPrompt db st now promptId organizationId version
          = Except.ok (res, st2) →
      (∀ s, version = some s →
          alookup st2.versionCache.kv.entries (versionKeyOf promptId version)
              = some ⟨shapeVersion vr, none⟩ ∧
            ∀ t, st2.versionCache.kv.getRaw t (versionKeyOf promptId version)
              = some (shapeVersion vr)) ∧
        (version = none →
          alookup st2.versionCache.kv.entries (versionKeyOf promptId version)
            = some ⟨shapeVersion vr, some (now + LATEST_VERSION_TTL)⟩) := by
  intro res st2 h
  obtain ⟨o1, ho1⟩ :=
    getFromCache_ok_of_noFail st.promptCache now ("prompt:" ++ promptId) hfg1
  rw [fetchPrompt_eq_resolved db st now promptId organizationId version hver,
    fetchPromptResolved_eq_core db st now promptId organizationId version
      (parsedVersionOf version) o1 none ho1 hv2] at h
  have hfp1a : ((getFromCache st.promptCache now
      ("prompt:" ++ promptId)).state).kv.failPut = [] := by
    rw [getFromCache_state_kv]; exact hfp1
  have hr2 : (getFromCache st.versionCache now
      (versionKeyOf promptId version)).state = st.versionCache :=
    getFromCache_none_state _ _ _ hv2
  have hfp2a : ((getFromCache st.versionCache now
      (versionKeyOf promptId version)).state).kv.failPut = [] := by
    rw [hr2]; exact hfp2
  have hpda : promptDataOf db promptId o1 ≠ none := by
    have hres : resolvedPrompt db st now promptId
        = promptDataOf db promptId o1 := by
      simp [resolvedPrompt, ho1]
    rw [hres] at hpd
    exact hpd
  have hwrite := fetchPromptCore_version_write db
    ⟨(getFromCache st.promptCache now ("prompt:" ++ promptId)).state,
      (getFromCache st.versionCache now
        (versionKeyOf promptId version)).state⟩
    now promptId organizationId version (parsedVersionOf version) o1 vr
    hfp1a hfp2a hq hpda res st2 h
  constructor
  · intro s hs
    subst hs
    exact ⟨hwrite, fun t => getRaw_of_noExpiry _ _ _ hwrite t⟩
  · intro hs
    subst hs
    exact hwrite

/-- C6 (witness): a cold cache, a live prompt `p1` and a request for the
explicit version `1.0.0` leave the version entry in the Shared Tier with
no expiry. -/
theorem c6_version_ttl_witness :
    ∃ res st2,
      fetchPrompt liveDb emptyFetchState 0 "p1" "o1" (some "1.0.0")
          = Except.ok (res, st2) ∧
        alookup st2.versionCache.kv.entries "version:p1:1.0.0"
          = some ⟨shapeVersion v100, none⟩ := by
  cases hcomp : fetchPrompt liveDb emptyFetchState 0 "p1" "o1"
      (some "1.0.0") with
  | error e =>
    cases e
    exact absurd hcomp (by decide)
  | ok p =>
    obtain ⟨res, st2⟩ := p
    have h6 := (c6_version_ttl liveDb emptyFetchState 0 "p1" "o1"
      (some "1.0.0") v100
      (by intro s hs; cases hs; decide)
      rfl rfl rfl (by decide) (by decide) (by decide)
      res st2 hcomp).1 "1.0.0" rfl
    exact ⟨res, st2, rfl, h6.1⟩

/-- C7: no entity-policy operation caches a negative result.  An unknown
API key returns the typed `INVALID_KEY` with the cache state unchanged; a
missing prompt row returns the typed `NOT_FOUND` with the prompt cache
unchanged and the version cache touched only by the read promotion; a
missing version behind a cached prompt returns a typed not-found outcome
with both caches unchanged beyond the prompt read; and a missing version
behind an uncached-but-found prompt caches the prompt only, leaving the
version cache untouched beyond its read, and returns a typed not-found
outcome. -/
theorem c7_no_negative_caching :
    (∀ (hash : String → String) (apikeys : List ApiKeyWithOrgRecord)
        (tc : TieredCache CachedApiKey) (now nowMs : Nat)
        (apiKey requiredPermission : String),
      (getFromCache tc now ("apikey:" ++ hash apiKey)).result
          = Except.ok none →
      apikeys.find? (fun a => a.key == hash apiKey) = none →
      verifyApiKey hash apikeys tc now nowMs apiKey requiredPermission
        = Except.ok (ApiKeyResult.invalid "INVALID_KEY", tc)) ∧
    (∀ (db : PromptDb) (st : FetchState) (now : Nat)
        (promptId organizationId : String) (version : Option String)
        (cv : Option CachedVersion),
      (∀ s, version = some s → parseVersion s ≠ none) →
      (getFromCache st.promptCache now ("prompt:" ++ promptId)).result
          = Except.ok none →
      (getFromCache st.versionCache now
          (versionKeyOf promptId version)).result = Except.ok cv →
      queryPrompt db.prompts promptId = none →
      fetchPrompt db st now promptId organizationId version
        = Except.ok (FetchResult.failure "Prompt not found" "NOT_FOUND",
            ⟨st.promptCache,
              (getFromCache st.versionCache now
                (versionKeyOf promptId version)).state⟩)) ∧
    (∀ (db : PromptDb) (st : FetchState) (now : Nat)
        (promptId organizationId : String) (version : Option String)
        (pd : CachedPrompt),
      (∀ s, version = some s → parseVersion s ≠ none) →
      (getFromCache st.promptCache now ("prompt:" ++ promptId)).result
          = Except.ok (some pd) →
      (getFromCache st.versionCache now
          (versionKeyOf promptId version)).result = Except.ok none →
      queryVersion db.versions promptId (parsedVersionOf version) = none →
      fetchPrompt db st now promptId organizationId version
          = Except.ok (finishFetch pd none organizationId version,
              ⟨(getFromCache st.promptCache now
                  ("prompt:" ++ promptId)).state, st.versionCache⟩) ∧
        (finishFetch pd none organizationId version
            = FetchResult.failure "Prompt not found" "NOT_FOUND" ∨
          ∃ e, finishFetch pd none organizationId version
            = FetchResult.failure e "VERSION_NOT_FOUND")) ∧
    (∀ (db : PromptDb) (st : FetchState) (now : Nat)
        (promptId organizationId : String) (version : Option String)
        (cv : Option CachedVersion) (pr : PromptRecord),
      (∀ s, version = some s → parseVersion s ≠ none) →
      st.promptCache.kv.failPut = [] →
      (getFromCache st.promptCache now ("prompt:" ++ promptId)).result
          = Except.ok none →
      (getFromCache st.versionCache now
          (versionKeyOf promptId version)).result = Except.ok cv →
      queryPrompt db.prompts promptId = some pr →
      queryVersion db.versions promptId (parsedVersionOf version) = none →
      fetchPrompt db st now promptId organizationId version
          = Except.ok
              (finishFetch (shapePrompt pr) none organizationId version,
                ⟨(setInCache st.promptCache now ("prompt:" ++ promptId)
                    (shapePrompt pr) (some L2_TTL)).state,
                  (getFromCache st.versionCache now
                    (versionKeyOf promptId version)).state⟩) ∧
        (finishFetch (shapePrompt pr) none organizationId version
            = FetchResult.failure "Prompt not found" "NOT_FOUND" ∨
          ∃ e, finishFetch (shapePrompt pr) none organizationId version
            = FetchResult.failure e "VERSION_NOT_FOUND")) := by
  refine ⟨?_, ?_, ?_, ?_⟩
  · intro hash apikeys tc now nowMs apiKey requiredPermission hget hfind
    have hstate := getFromCache_none_state tc now ("apikey:" ++ hash apiKey)
      hget
    simp only [verifyApiKey]
    rw [hget, hfind, hstate]
  · intro db st now promptId organizationId version cv hver h1 h2 hqp
    rw [fetchPrompt_eq_resolved db st now promptId organizationId version hver,
      fetchPromptResolved_eq_core db st now promptId organizationId version
        (parsedVersionOf version) none cv h1 h2]
    have hstate := getFromCache_none_state st.promptCache now
      ("prompt:" ++ promptId) h1
    simp only [fetchPromptCore, hqp]
    rw [hstate]
  · intro db st now promptId organizationId version pd hver h1 h2 hq
    constructor
    · rw [fetchPrompt_eq_resolved db st now promptId organizationId version
        hver,
        fetchPromptResolved_eq_core db st now promptId organizationId version
          (parsedVersionOf version) (some pd) none h1 h2]
      have hstate := getFromCache_none_state st.versionCache now
        (versionKeyOf promptId version) h2
      simp only [fetchPromptCore, hq]
      rw [hstate]
    · by_cases hm : pd.organizationId = organizationId
      · right
        cases version with
        | some s =>
          exact ⟨"Version " ++ s ++ " not found", by simp [finishFetch, hm]⟩
        | none =>
          exact ⟨"No published version found", by simp [finishFetch, hm]⟩
      · left
        exact finishFetch_mismatch pd none organizationId version hm
  · intro db st now promptId organizationId version cv pr hver hfp1 h1 h2
      hqp hq
    constructor
    · rw [fetchPrompt_eq_resolved db st now promptId organizationId version
        hver,
        fetchPromptResolved_eq_core db st now promptId organizationId version
          (parsedVersionOf version) none cv h1 h2]
      have hstate := getFromCache_none_state st.promptCache now
        ("prompt:" ++ promptId) h1
      have hfp1a : ((getFromCache st.promptCache now
          ("prompt:" ++ promptId)).state).kv.failPut = [] := by
        rw [getFromCache_state_kv]; exact hfp1
      have hw1 : (setInCache (getFromCache st.promptCache now
          ("prompt:" ++ promptId)).state now ("prompt:" ++ promptId)
          (shapePrompt pr) (some L2_TTL)).result = Except.ok () :=
        setInCache_ok_of_noFail _ _ _ _ _ hfp1a
      simp only [fetchPromptCore, hqp, hq]
      rw [hw1, hstate]
    · by_cases hm : (shapePrompt pr).organizationId = organizationId
      · right
        cases version with
        | some s =>
          exact ⟨"Version " ++ s ++ " not found", by simp [finishFetch, hm]⟩
        | none =>
          exact ⟨"No published version found", by simp [finishFetch, hm]⟩
      · left
        exact finishFetch_mismatch (shapePrompt pr) none organizationId
          version hm

/-- C7 (witness): an unknown key against an empty store and a cold cache
returns the typed `INVALID_KEY` and leaves the cache exactly as it was;
and an uncached prompt that exists without any published version caches
the prompt only, leaving the version cache exactly as its read left it. -/
theorem c7_no_negative_caching_witness :
    (verifyApiKey (fun s => s) []
        (⟨⟨[]⟩, ⟨[], [], []⟩⟩ : TieredCache CachedApiKey) 0 0 "K"
        "prompt:read"
      = Except.ok (ApiKeyResult.invalid "INVALID_KEY",
          ⟨⟨[]⟩, ⟨[], [], []⟩⟩)) ∧
    fetchPrompt foreignDb emptyFetchState 0 "p1" "o1" none
      = Except.ok
          (finishFetch (shapePrompt ⟨"p1", "o1", "n", "d", none⟩) none "o1"
              none,
            ⟨(setInCache emptyFetchState.promptCache 0 ("prompt:" ++ "p1")
                (shapePrompt ⟨"p1", "o1", "n", "d", none⟩)
                (some L2_TTL)).state,
              (getFromCache emptyFetchState.versionCache 0
                (versionKeyOf "p1" none)).state⟩) :=
  ⟨c7_no_negative_caching.1 (fun s => s) [] _ 0 0 "K" "prompt:read" rfl rfl,
    (c7_no_negative_caching.2.2.2 foreignDb emptyFetchState 0 "p1" "o1" none
      none ⟨"p1", "o1", "n", "d", none⟩ (by intro s hs; cases hs) rfl
      (by decide) (by decide) (by decide) (by decide)).1⟩

/-- C9: for every state in which the prompt resolves to an owner different
from the caller's organization, `fetchPrompt` returns exactly the
`NOT_FOUND` outcome that a nonexistent prompt produces — the ownership
check precedes the version check, so neither `VERSION_NOT_FOUND` nor any
version content is revealed for another organization's prompt. -/
theorem c9_org_isolation (db : PromptDb) (st : FetchState) (now : Nat)
    (promptId organizationId : String) (version : Option String)
    (hver : ∀ s, version = some s → parseVersion s ≠ none)
    (hfg1 : st.promptCache.kv.failGet = [])
    (hfg2 : st.versionCache.kv.failGet = [])
    (hfp1 : st.promptCache.kv.failPut = [])
    (hfp2 : st.versionCache.kv.failPut = []) :
    (∀ pd, resolvedPrompt db st now promptId = some pd →
      pd.organizationId ≠ organizationId →
      ∃ st2, fetchPrompt db st now promptId organizationId version
        = Except.ok
            (FetchResult.failure "Prompt not found" "NOT_FOUND", st2)) ∧
    (resolvedPrompt db st now promptId = none →
      ∃ st2, fetchPrompt db st now promptId organizationId version
        = Except.ok
            (FetchResult.failure "Prompt not found" "NOT_FOUND", st2)) := by
  obtain ⟨o1, ho1⟩ :=
    getFromCache_ok_of_noFail st.promptCache now ("prompt:" ++ promptId) hfg1
  obtain ⟨o2, ho2⟩ := getFromCache_ok_of_noFail st.versionCache now
    (versionKeyOf promptId version) hfg2
  have hred : fetchPrompt db st now promptId organizationId version
      = fetchPromptCore db
          ⟨(getFromCache st.promptCache now ("prompt:" ++ promptId)).state,
            (getFromCache st.versionCache now
              (versionKeyOf promptId version)).state⟩
          now promptId organizationId version (parsedVersionOf version)
          o1 o2 := by
    rw [fetchPrompt_eq_resolved db st now promptId organizationId version
      hver,
      fetchPromptResolved_eq_core db st now promptId organizationId version
        (parsedVersionOf version) o1 o2 ho1 ho2]
  have hfp1a : ((getFromCache st.promptCache now
      ("prompt:" ++ promptId)).state).kv.failPut = [] := by
    rw [getFromCache_state_kv]; exact hfp1
  have hfp2a : ((getFromCache st.versionCache now
      (versionKeyOf promptId version)).state).kv.failPut = [] := by
    rw [getFromCache_state_kv]; exact hfp2
  have hshape := fetchPromptCore_shape db
    ⟨(getFromCache st.promptCache now ("prompt:" ++ promptId)).state,
      (getFromCache st.versionCache now
        (versionKeyOf promptId version)).state⟩
    now promptId organizationId version (parsedVersionOf version) o1 o2
    hfp1a hfp2a
  have hres : resolvedPrompt db st now promptId
      = promptDataOf db promptId o1 := by
    simp [resolvedPrompt, ho1]
  constructor
  · intro pd hpd hmis
    rw [hres] at hpd
    obtain ⟨st2, vd, heq⟩ := hshape.1 pd hpd
    refine ⟨st2, ?_⟩
    rw [hred, heq,
      finishFetch_mismatch pd vd organizationId version hmis]
  · intro hpd
    rw [hres] at hpd
    obtain ⟨st2, heq⟩ := hshape.2 hpd
    exact ⟨st2, by rw [hred, heq]⟩

/-- C9 (witness): a prompt owned by `o1` requested by `o2` yields exactly
the nonexistent-prompt outcome. -/
theorem c9_org_isolation_witness :
    (fetchPrompt foreignDb emptyFetchState 0 "p1" "o2" none).map Prod.fst
      = Except.ok (FetchResult.failure "Prompt not found" "NOT_FOUND") := by
  obtain ⟨st2, h⟩ := (c9_org_isolation foreignDb emptyFetchState 0 "p1" "o2"
    none (by intro s hs; cases hs) rfl rfl rfl rfl).1
    ⟨"p1", "o1", "n", "d"⟩ (by decide) (by decide)
  rw [h]
  rfl

end Promptly
